import Mathlib

/-!
Shallow embedding of the event-aggregation and batching engine of a test
collector (sources: `src/payload.rs`, `src/input.rs`, `src/run_env.rs`).

Modelling conventions:
* `std::time::Instant` is modelled as a `Nat` counting whole milliseconds
  from an arbitrary origin; `Instant::now()` is injected as an explicit
  `now : Nat` argument (the clock seam).
* `f64` values (offsets, durations) are idealised as `ℚ`; the quantities
  involved here are exact decimal fractions, so no rounding is modelled.
* `Uuid::new_v4().to_string()` is injected as an explicit `uuid : String`
  argument.
* `HashMap<String, TestData>` is modelled as an association list with
  unique keys; `insert` replaces the value when the key is present and
  appends otherwise, `get_mut`-style mutation maps the stored value.
* A Rust panic (`Option::unwrap` / `slice::chunks(0)`) is modelled by the
  functions returning `none`.
-/

/-- `RuntimeEnvironment` from `src/run_env.rs`: the detected CI identity
record.  Treated as opaque data by the aggregator. -/
structure RuntimeEnvironment where
  ci : String
  key : String
  number : Option String
  job_id : Option String
  branch : Option String
  commit_sha : Option String
  message : Option String
  url : Option String
  collector : String
  version : String

/-- A concrete `RuntimeEnvironment` used for concrete evaluations
(mirrors `RuntimeEnvironment::generic` in `src/run_env.rs`). -/
def genericEnv : RuntimeEnvironment :=
  { ci := "generic", key := "k", number := none, job_id := none,
    branch := none, commit_sha := none, message := none, url := none,
    collector := "rust-buildkite-test-collector", version := "0.1.0" }

/-- `TestResult` from `src/payload.rs`: did the test pass, and if not why. -/
inductive TestResult : Type where
  | Passed : TestResult
  | Failed (failure_reason : Option String) : TestResult

/-- `TestHistory` from `src/payload.rs`: timing information about a test.
Declared as an inductive because the (always-empty in this code) `children`
field makes the type recursive. -/
inductive TestHistory : Type where
  | mk (sect : String) (start_at : Option ℚ) (end_at : Option ℚ)
      (duration : Option ℚ) (children : List TestHistory) : TestHistory

/-- The `section` field of a `TestHistory` (renamed: `section` is reserved). -/
def TestHistory.sect : TestHistory → String
  | .mk s _ _ _ _ => s

/-- The `start_at` field of a `TestHistory`. -/
def TestHistory.start_at : TestHistory → Option ℚ
  | .mk _ s _ _ _ => s

/-- The `end_at` field of a `TestHistory`. -/
def TestHistory.end_at : TestHistory → Option ℚ
  | .mk _ _ e _ _ => e

/-- The `duration` field of a `TestHistory`. -/
def TestHistory.duration : TestHistory → Option ℚ
  | .mk _ _ _ d _ => d

/-- The `children` field of a `TestHistory`. -/
def TestHistory.children : TestHistory → List TestHistory
  | .mk _ _ _ _ c => c

/-- `TestHistory::is_finished`: have we received a finishing event? -/
def TestHistory.is_finished (h : TestHistory) : Bool :=
  h.end_at.isSome

/-- The in-place mutation `history.end_at = Some(e); history.duration =
Some(d)` performed by the `Ok` and `Failed` arms of `push_test_event`. -/
def TestHistory.set_finish : TestHistory → ℚ → ℚ → TestHistory
  | .mk s st _ _ ch, e, d => .mk s st (some e) (some d) ch

/-- `TestData` from `src/payload.rs`: information about one test result. -/
structure TestData where
  id : String
  scope : String
  name : String
  result : TestResult
  history : TestHistory

/-- `TestData::is_finished`. -/
def TestData.is_finished (td : TestData) : Bool :=
  td.history.is_finished

/-- Lookup in the association-list model of `HashMap<String, TestData>`. -/
def lookupKV : List (String × TestData) → String → Option TestData
  | [], _ => none
  | (k2, v) :: rest, k => if k2 = k then some v else lookupKV rest k

/-- `HashMap::insert`: replace the value when the key is present,
otherwise add the binding. -/
def insertKV : List (String × TestData) → String → TestData → List (String × TestData)
  | [], k, v => [(k, v)]
  | (k2, v2) :: rest, k, v =>
      if k2 = k then (k2, v) :: rest else (k2, v2) :: insertKV rest k v

/-- `HashMap::get_mut` followed by mutation of the stored value. -/
def updateKV : List (String × TestData) → String → (TestData → TestData) → List (String × TestData)
  | [], _, _ => []
  | (k2, v2) :: rest, k, f =>
      if k2 = k then (k2, f v2) :: rest else (k2, v2) :: updateKV rest k f

/-- `Payload` from `src/payload.rs`: the (possibly) incomplete data to be
eventually sent to the API. -/
structure Payload where
  run_env : RuntimeEnvironment
  data : List (String × TestData)
  started_at : Option Nat
  finished_at : Option Nat

/-- `Payload::new`. -/
def Payload.new (run_env : RuntimeEnvironment) : Payload :=
  { run_env := run_env, data := [], started_at := none, finished_at := none }

/-- `Payload::new_clean`. -/
def Payload.new_clean (self : Payload) : Payload :=
  { run_env := self.run_env, data := [], started_at := self.started_at,
    finished_at := self.finished_at }

/-- `SuiteResults` from `src/input.rs`. -/
structure SuiteResults where
  passed : Nat
  failed : Nat
  ignored : Nat
  measured : Nat
  filtered_out : Nat
  exec_time : ℚ

/-- `SuiteEvent` from `src/input.rs`. -/
inductive SuiteEvent : Type where
  | Started (test_count : Nat) : SuiteEvent
  | Ok (results : SuiteResults) : SuiteEvent
  | Failed (results : SuiteResults) : SuiteEvent

/-- `TestEvent` from `src/input.rs`. -/
inductive TestEvent : Type where
  | Started (name : String) : TestEvent
  | Ok (name : String) (exec_time : ℚ) : TestEvent
  | Failed (name : String) (exec_time : ℚ)
      (stdout : Option String) (stderr : Option String) : TestEvent
  | Ignored (name : String) : TestEvent
  | Timeout (name : String) : TestEvent

/-- `Event` from `src/input.rs`. -/
inductive Event : Type where
  | Suite (event : SuiteEvent) : Event
  | Test (event : TestEvent) : Event

/-- `Instant::now().duration_since(started_at).as_millis() as f64 / 1000000.0`,
the inline offset computation of `push_test_event`, with instants as whole
milliseconds (`Nat` subtraction matches the saturating duration). -/
def elapsed_offset (t0 now : Nat) : ℚ :=
  ((now - t0 : Nat) : ℚ) / 1000000

/-- Modelled from the spec: the "elapsed seconds between `started_at` and
now()" that the spec says the stored offsets equal, with the same
millisecond-valued instants. -/
def elapsed_seconds (t0 now : Nat) : ℚ :=
  ((now - t0 : Nat) : ℚ) / 1000

/-- Modelled from the spec: the leaf portion of a test name, "the final
segment" of the name split on its scope separator `::`. -/
def specLeaf (name : String) : String :=
  (name.splitOn "::").getLast!

/-- Modelled from the spec: the scope portion of a test name, "all
preceding segments rejoined with the same separator (empty string if there
is only one segment)". -/
def specScope (name : String) : String :=
  String.intercalate "::" ((name.splitOn "::").dropLast)

/-- `Payload::push_suite_event` from `src/payload.rs`, with the clock
injected. -/
def Payload.push_suite_event (self : Payload) (now : Nat)
    (suite_event : SuiteEvent) : Payload :=
  match suite_event with
  | SuiteEvent.Started _ => { self with started_at := some now }
  | SuiteEvent.Ok _ => { self with finished_at := some now }
  | SuiteEvent.Failed _ => { self with finished_at := some now }

/-- `Payload::push_test_event` from `src/payload.rs`, with the clock and
uuid injected.  `none` models a panic: the code calls
`self.data.get_mut(&name).unwrap()` and `self.started_at.unwrap()`. -/
def Payload.push_test_event (self : Payload) (now : Nat) (uuid : String)
    (test_event : TestEvent) : Option Payload :=
  match test_event with
  | TestEvent.Started name =>
    let name_chunks := name.splitOn "::"
    match self.started_at with
    | none => none
    | some t0 =>
      let data : TestData :=
        { id := uuid
          name := name_chunks.getLast!
          scope := String.intercalate "::" ((name_chunks.reverse.drop 1).reverse)
          result := TestResult.Passed
          history := TestHistory.mk "top" (some (elapsed_offset t0 now)) none none [] }
      some { self with data := insertKV self.data name data }
  | TestEvent.Ok name exec_time =>
    match lookupKV self.data name, self.started_at with
    | some _, some t0 =>
      some { self with data := updateKV self.data name (fun d =>
        { d with history := d.history.set_finish (elapsed_offset t0 now) exec_time }) }
    | _, _ => none
  | TestEvent.Failed name exec_time stdout _stderr =>
    match lookupKV self.data name, self.started_at with
    | some _, some t0 =>
      some { self with data := updateKV self.data name (fun d =>
        { d with
            history := d.history.set_finish (elapsed_offset t0 now) exec_time
            result := TestResult.Failed stdout }) }
    | _, _ => none
  | TestEvent.Ignored _ => some self
  | TestEvent.Timeout _ => some self

/-- `Payload::push` from `src/payload.rs`. -/
def Payload.push (self : Payload) (now : Nat) (uuid : String)
    (event : Event) : Option Payload :=
  match event with
  | Event.Suite suite_event => some (self.push_suite_event now suite_event)
  | Event.Test test_event => self.push_test_event now uuid test_event

/-- `slice::chunks` with a fuel argument making the recursion structural;
`batchify` calls it with fuel equal to the list length, which consumes the
whole list whenever `n ≥ 1` (the `n = 0` case is unreachable: `chunks(0)`
panics and `batchify` models that panic before chunking). -/
def chunksOfAux {α : Type} (n : Nat) : Nat → List α → List (List α)
  | 0, _ => []
  | _ + 1, [] => []
  | fuel + 1, x :: xs => ((x :: xs).take n) :: chunksOfAux n fuel (xs.drop (n - 1))

/-- `slice::chunks(n)` on a list, for `n ≥ 1`. -/
def chunksOf {α : Type} (n : Nat) (l : List α) : List (List α) :=
  chunksOfAux n l.length l

/-- The closure body `payload.data.insert(test_data.name.clone(),
test_data.clone())` used by `batchify` when filling a batch. -/
def Payload.insertData (pl : Payload) (td : TestData) : Payload :=
  { pl with data := insertKV pl.data td.name td }

/-- `Payload::batchify` from `src/payload.rs`.  `none` models the panic of
`slice::chunks(0)` when `batch_size = 0`. -/
def Payload.batchify (self : Payload) (batch_size : Nat) : Option (List Payload) :=
  if batch_size = 0 then
    none
  else
    some ((chunksOf batch_size
        ((self.data.map Prod.snd).partition (fun td => td.is_finished)).1).map
      (fun chunk =>
        let payload := chunk.foldl Payload.insertData self.new_clean
        if payload.data.length < batch_size then
          ((self.data.map Prod.snd).partition (fun td => td.is_finished)).2.foldl
            Payload.insertData payload
        else
          payload))

/-- The character `{` (written via its code point). -/
def openBrace : Char := Char.ofNat 123

/-- `parse` from `src/input.rs`, with the line source modelled as a list of
strings, `serde_json::from_str` injected as `decode`, and the clock and
uuid injected.  `some (Except.error e)` models an early `Err` return via
`?`; `none` models a panic inside `Payload::push`; the stdout echo is not
modelled. -/
def parse (decode : String → Except String Event) (now : Nat) (uuid : String) :
    List String → Payload → Option (Except String Payload)
  | [], payload => some (Except.ok payload)
  | line :: rest, payload =>
    if (line.toList.find? fun c => !c.isWhitespace) ≠ some openBrace then
      parse decode now uuid rest payload
    else
      match decode line with
      | Except.error e => some (Except.error e)
      | Except.ok event =>
        match payload.push now uuid event with
        | none => none
        | some payload2 => parse decode now uuid rest payload2

/-- A concrete finished (complete) test record used in evaluations. -/
def tdC (nm : String) : TestData :=
  { id := nm, scope := "", name := nm, result := TestResult.Passed,
    history := TestHistory.mk "top" (some 0) (some 1) (some 1) [] }

/-- A concrete unfinished (incomplete) test record used in evaluations. -/
def tdI (nm : String) : TestData :=
  { id := nm, scope := "", name := nm, result := TestResult.Passed,
    history := TestHistory.mk "top" (some 0) none none [] }

/-- A session with one complete and two incomplete records. -/
def pEx1 : Payload :=
  { run_env := genericEnv, data := [("a", tdC "a"), ("b", tdI "b"), ("c", tdI "c")],
    started_at := none, finished_at := none }

/-- A session with one incomplete record and no complete record. -/
def pEx4 : Payload :=
  { run_env := genericEnv, data := [("b", tdI "b")],
    started_at := none, finished_at := none }

/-- A started session with no records. -/
def pEx5 : Payload :=
  { run_env := genericEnv, data := [], started_at := some 0, finished_at := none }

/-- A started session holding one incomplete record named `t`. -/
def pEx6 : Payload :=
  { run_env := genericEnv, data := [("t", tdI "t")],
    started_at := some 0, finished_at := none }

/-- A started session holding one incomplete record named `t`, for the
end-offset evaluation. -/
def pEx7o : Payload :=
  { run_env := genericEnv, data := [("t", tdI "t")],
    started_at := some 0, finished_at := none }

/-- A started session holding one complete record named `t`. -/
def pEx10 : Payload :=
  { run_env := genericEnv, data := [("t", tdC "t")],
    started_at := some 0, finished_at := none }

/-- A decoder that rejects every line, for concrete `parse` runs. -/
def dEx (_line : String) : Except String Event := Except.error "bad"

theorem lookupKV_insertKV_self (m : List (String × TestData)) (k : String) (v : TestData) :
    lookupKV (insertKV m k v) k = some v := by
  induction m with
  | nil => simp [insertKV, lookupKV]
  | cons kv rest ih =>
    obtain ⟨k2, v2⟩ := kv
    by_cases h : k2 = k
    · simp [insertKV, lookupKV, h]
    · simp [insertKV, lookupKV, h, ih]

theorem lookupKV_updateKV_self (m : List (String × TestData)) (k : String)
    (f : TestData → TestData) :
    lookupKV (updateKV m k f) k = Option.map f (lookupKV m k) := by
  induction m with
  | nil => simp [updateKV, lookupKV]
  | cons kv rest ih =>
    obtain ⟨k2, v2⟩ := kv
    by_cases h : k2 = k
    · simp [updateKV, lookupKV, h]
    · simp [updateKV, lookupKV, h, ih]

theorem insertKV_length_le (m : List (String × TestData)) (k : String) (v : TestData) :
    (insertKV m k v).length ≤ m.length + 1 := by
  induction m with
  | nil => simp [insertKV]
  | cons kv rest ih =>
    obtain ⟨k2, v2⟩ := kv
    by_cases h : k2 = k
    · simp [insertKV, h]
    · simp only [insertKV, if_neg h, List.length_cons]
      omega

theorem foldl_insertData_length (l : List TestData) (pl : Payload) :
    (l.foldl Payload.insertData pl).data.length ≤ pl.data.length + l.length := by
  induction l generalizing pl with
  | nil => simp
  | cons x xs ih =>
    have h1 : (pl.insertData x).data.length ≤ pl.data.length + 1 :=
      insertKV_length_le pl.data x.name x
    have h2 := ih (pl.insertData x)
    simp only [List.foldl_cons, List.length_cons]
    omega

theorem chunksOfAux_mem_length {α : Type} (n : Nat) (fuel : Nat) (l : List α) :
    ∀ c ∈ chunksOfAux n fuel l, c.length ≤ n := by
  induction fuel generalizing l with
  | zero => intro c hc; simp [chunksOfAux] at hc
  | succ f ih =>
    intro c hc
    cases l with
    | nil => simp [chunksOfAux] at hc
    | cons x xs =>
      simp only [chunksOfAux, List.mem_cons] at hc
      rcases hc with rfl | hc
      · rw [List.length_take]
        exact Nat.min_le_left _ _
      · exact ih _ c hc

theorem chunksOf_mem_length {α : Type} (n : Nat) (l : List α) :
    ∀ c ∈ chunksOf n l, c.length ≤ n :=
  chunksOfAux_mem_length n l.length l

theorem reverse_drop_one_reverse {α : Type} (l : List α) :
    (l.reverse.drop 1).reverse = l.dropLast := by
  rw [List.drop_one, List.tail_reverse_eq_reverse_dropLast, List.reverse_reverse]

theorem set_finish_end_at (h : TestHistory) (e d : ℚ) :
    (h.set_finish e d).end_at = some e := by
  cases h; rfl

theorem set_finish_duration (h : TestHistory) (e d : ℚ) :
    (h.set_finish e d).duration = some d := by
  cases h; rfl

/-- C8: applying a Test.Ignored or a Test.Timeout event leaves the session
entirely unchanged — no record is created or mutated, so in particular no
record can become complete as a result of such an event. -/
theorem ignored_timeout_no_change (p : Payload) (now : Nat) (uuid name name2 : String) :
    p.push_test_event now uuid (TestEvent.Ignored name) = some p ∧
    p.push_test_event now uuid (TestEvent.Timeout name2) = some p :=
  ⟨rfl, rfl⟩

/-- C2: the claim (and the spec) require a Test.Ok or Test.Failed event
naming a test with no record to be a no-op; the code instead calls
`.unwrap()` on the failed `get_mut` lookup, which panics (modelled by
`none`), aborting the aggregator mid-stream. -/
theorem unknown_name_ok_failed_panics (p : Payload) (now : Nat) (uuid name : String)
    (exec_time : ℚ) (stdout stderr : Option String)
    (h : lookupKV p.data name = none) :
    p.push_test_event now uuid (TestEvent.Ok name exec_time) = none ∧
    p.push_test_event now uuid (TestEvent.Failed name exec_time stdout stderr) = none := by
  rcases hs : p.started_at with _ | t0 <;>
    constructor <;> simp [Payload.push_test_event, h, hs]

theorem unknown_name_ok_failed_panics_witness :
    lookupKV (Payload.new genericEnv).data "t" = none ∧
    ((Payload.new genericEnv).push_test_event 0 "u" (TestEvent.Ok "t" 1) = none ∧
     (Payload.new genericEnv).push_test_event 0 "u"
       (TestEvent.Failed "t" 1 (some "boom") (some "noise")) = none) :=
  ⟨rfl, unknown_name_ok_failed_panics (Payload.new genericEnv) 0 "u" "t" 1
    (some "boom") (some "noise") rfl⟩

/-- C3: the claim (and the spec) require a Test.Started event arriving
before any Suite.Started to act as an implicit suite start; the code
instead calls `self.started_at.unwrap()`, which panics (modelled by
`none`) when no suite start has been observed. -/
theorem started_without_suite_panics (p : Payload) (now : Nat) (uuid name : String)
    (h : p.started_at = none) :
    p.push_test_event now uuid (TestEvent.Started name) = none := by
  simp [Payload.push_test_event, h]

theorem started_without_suite_panics_witness :
    (Payload.new genericEnv).started_at = none ∧
    (Payload.new genericEnv).push_test_event 0 "u" (TestEvent.Started "t") = none :=
  ⟨rfl, started_without_suite_panics (Payload.new genericEnv) 0 "u" "t" rfl⟩

/-- C4: when the session holds zero complete records, `batchify` returns
an empty sequence of batches, regardless of how many incomplete records
the session holds — incomplete records are never uploaded on their own. -/
theorem batchify_no_complete_empty (p : Payload) (N : Nat) (hN : 0 < N)
    (h : (p.data.map Prod.snd).filter (fun td => td.is_finished) = []) :
    p.batchify N = some [] := by
  have hN0 : ¬N = 0 := by omega
  simp [Payload.batchify, hN0, List.partition_eq_filter_filter, h, chunksOf, chunksOfAux]

theorem batchify_no_complete_empty_witness :
    0 < 1 ∧ (pEx4.data.map Prod.snd).filter (fun td => td.is_finished) = [] ∧
    pEx4.batchify 1 = some [] :=
  ⟨by decide, rfl, batchify_no_complete_empty pEx4 1 (by decide) rfl⟩

/-- C5: a Test.Started{name} event creates a record whose `name` is the
final `::`-separated segment of the event's name, whose `scope` is all
preceding segments rejoined with `::` (empty string for a single
segment), with outcome Passed and no end offset, stored in the mapping
under the original full name. -/
theorem started_record_decomposition (p : Payload) (t0 now : Nat) (uuid name : String)
    (h : p.started_at = some t0) :
    ∃ q, p.push_test_event now uuid (TestEvent.Started name) = some q ∧
      lookupKV q.data name = some
        { id := uuid, name := specLeaf name, scope := specScope name,
          result := TestResult.Passed,
          history := TestHistory.mk "top" (some (elapsed_offset t0 now)) none none [] } := by
  have hscope : String.intercalate "::" (((name.splitOn "::").reverse.drop 1).reverse)
      = specScope name := by
    rw [reverse_drop_one_reverse]; rfl
  refine ⟨{ p with data := insertKV p.data name ({ id := uuid, name := specLeaf name, scope := specScope name, result := TestResult.Passed, history := TestHistory.mk "top" (some (elapsed_offset t0 now)) none none [] }) }, ?_, lookupKV_insertKV_self p.data name _⟩
  simp only [Payload.push_test_event, h, specLeaf, hscope]

theorem started_record_decomposition_witness :
    pEx5.started_at = some 0 ∧
    (∃ q, pEx5.push_test_event 5 "u" (TestEvent.Started "mod::case") = some q ∧
      lookupKV q.data "mod::case" = some
        { id := "u", name := specLeaf "mod::case", scope := specScope "mod::case",
          result := TestResult.Passed,
          history := TestHistory.mk "top" (some (elapsed_offset 0 5)) none none [] }) :=
  ⟨rfl, started_record_decomposition pEx5 0 5 "u" "mod::case" rfl⟩

/-- C10: when the session already holds a record for `name` (here possibly
a complete one), another Test.Started{name} event replaces it with a
brand-new record carrying the injected fresh id, outcome Passed and no end
offset — the accumulated outcome and timing are discarded and the record
is incomplete again. -/
theorem restarted_replaces_record (p : Payload) (t0 now : Nat) (uuid name : String)
    (old : TestData) (h : p.started_at = some t0)
    (_hold : lookupKV p.data name = some old) :
    ∃ q, p.push_test_event now uuid (TestEvent.Started name) = some q ∧
      ∃ td, lookupKV q.data name = some td ∧
        td.id = uuid ∧ td.result = TestResult.Passed ∧
        td.history.end_at = none ∧ td.history.duration = none ∧
        td.is_finished = false := by
  refine ⟨{ p with data := insertKV p.data name ({ id := uuid, name := (name.splitOn "::").getLast!, scope := String.intercalate "::" (((name.splitOn "::").reverse.drop 1).reverse), result := TestResult.Passed, history := TestHistory.mk "top" (some (elapsed_offset t0 now)) none none [] }) }, ?_, ?_⟩
  · simp only [Payload.push_test_event, h]
  · exact ⟨_, lookupKV_insertKV_self p.data name _, rfl, rfl, rfl, rfl, rfl⟩

theorem restarted_replaces_record_witness :
    pEx10.started_at = some 0 ∧ lookupKV pEx10.data "t" = some (tdC "t") ∧
    (∃ q, pEx10.push_test_event 9 "u2" (TestEvent.Started "t") = some q ∧
      ∃ td, lookupKV q.data "t" = some td ∧
        td.id = "u2" ∧ td.result = TestResult.Passed ∧
        td.history.end_at = none ∧ td.history.duration = none ∧
        td.is_finished = false) :=
  ⟨rfl, rfl, restarted_replaces_record pEx10 0 9 "u2" "t" (tdC "t") rfl rfl⟩

/-- C6: a Test.Failed{name, exec_time, stdout, stderr} event on a known
record performs the same timing update as Test.Ok (end offset set, and
duration = exec_time) and sets the record's outcome to Failed with
failure reason equal to the event's stdout; the stderr content is
discarded and retained nowhere in the record. -/
theorem failed_same_timing_reason_stdout (p : Payload) (t0 now : Nat) (uuid name : String)
    (exec_time : ℚ) (stdout stderr : Option String) (td : TestData)
    (h : p.started_at = some t0) (htd : lookupKV p.data name = some td) :
    (∃ q, p.push_test_event now uuid (TestEvent.Failed name exec_time stdout stderr) = some q ∧
      ∃ td1, lookupKV q.data name = some td1 ∧
        td1.result = TestResult.Failed stdout ∧
        td1.history.end_at = some (elapsed_offset t0 now) ∧
        td1.history.duration = some exec_time ∧
        (∃ q2, p.push_test_event now uuid (TestEvent.Ok name exec_time) = some q2 ∧
          ∃ td2, lookupKV q2.data name = some td2 ∧ td2.history = td1.history)) ∧
    (∀ stderr2, p.push_test_event now uuid (TestEvent.Failed name exec_time stdout stderr2) =
      p.push_test_event now uuid (TestEvent.Failed name exec_time stdout stderr)) := by
  have hfail : p.push_test_event now uuid (TestEvent.Failed name exec_time stdout stderr) =
      some { p with data := updateKV p.data name (fun d => { d with history := d.history.set_finish (elapsed_offset t0 now) exec_time, result := TestResult.Failed stdout }) } := by
    simp only [Payload.push_test_event, htd, h]
  have hok : p.push_test_event now uuid (TestEvent.Ok name exec_time) =
      some { p with data := updateKV p.data name (fun d => { d with history := d.history.set_finish (elapsed_offset t0 now) exec_time }) } := by
    simp only [Payload.push_test_event, htd, h]
  have hl := lookupKV_updateKV_self p.data name (fun d => { d with history := d.history.set_finish (elapsed_offset t0 now) exec_time, result := TestResult.Failed stdout })
  rw [htd] at hl
  have hl2 := lookupKV_updateKV_self p.data name (fun d => { d with history := d.history.set_finish (elapsed_offset t0 now) exec_time })
  rw [htd] at hl2
  refine ⟨⟨_, hfail, _, hl, rfl, set_finish_end_at _ _ _, set_finish_duration _ _ _, ?_⟩,
    fun stderr2 => rfl⟩
  exact ⟨_, hok, _, hl2, rfl⟩

theorem failed_same_timing_reason_stdout_witness :
    pEx6.started_at = some 0 ∧ lookupKV pEx6.data "t" = some (tdI "t") ∧
    ((∃ q, pEx6.push_test_event 7 "u" (TestEvent.Failed "t" 1 (some "panic") (some "noise")) = some q ∧
      ∃ td1, lookupKV q.data "t" = some td1 ∧
        td1.result = TestResult.Failed (some "panic") ∧
        td1.history.end_at = some (elapsed_offset 0 7) ∧
        td1.history.duration = some 1 ∧
        (∃ q2, pEx6.push_test_event 7 "u" (TestEvent.Ok "t" 1) = some q2 ∧
          ∃ td2, lookupKV q2.data "t" = some td2 ∧ td2.history = td1.history)) ∧
    (∀ stderr2, pEx6.push_test_event 7 "u" (TestEvent.Failed "t" 1 (some "panic") stderr2) =
      pEx6.push_test_event 7 "u" (TestEvent.Failed "t" 1 (some "panic") (some "noise")))) :=
  ⟨rfl, rfl, failed_same_timing_reason_stdout pEx6 0 7 "u" "t" 1 (some "panic") (some "noise") (tdI "t") rfl rfl⟩

/-- C7: the claim (and the spec) say stored offsets equal the elapsed
seconds since suite start; the code computes
`as_millis() as f64 / 1000000.0`, which is the elapsed seconds divided by
1000.  With suite start at 0 ms and the event at 2000000 ms (2000 s
elapsed), the stored start offset is 2, not 2000, and the end offset
stored by Test.Ok diverges identically. -/
theorem offsets_not_elapsed_seconds :
    (∃ q, pEx5.push_test_event 2000000 "u" (TestEvent.Started "t") = some q ∧
      ∃ td, lookupKV q.data "t" = some td ∧
        td.history.start_at = some (elapsed_offset 0 2000000)) ∧
    (∃ q, pEx7o.push_test_event 2000000 "u" (TestEvent.Ok "t" 1) = some q ∧
      ∃ td, lookupKV q.data "t" = some td ∧
        td.history.end_at = some (elapsed_offset 0 2000000)) ∧
    elapsed_offset 0 2000000 = 2 ∧ elapsed_seconds 0 2000000 = 2000 ∧
    elapsed_offset 0 2000000 ≠ elapsed_seconds 0 2000000 := by
  refine ⟨⟨_, rfl, _, rfl, rfl⟩, ⟨_, rfl, _, rfl, rfl⟩, ?_, ?_, ?_⟩ <;>
    norm_num [elapsed_offset, elapsed_seconds]

/-- C9: a line whose first non-whitespace character is not `{` is skipped
without error and leaves the payload unchanged, while a candidate line
(first non-whitespace character `{`) that fails to decode makes `parse`
return that decode error without consuming further lines. -/
theorem parse_skip_noncandidate_error_candidate
    (decode : String → Except String Event) (now : Nat) (uuid : String)
    (line : String) (rest : List String) (p : Payload) :
    ((line.toList.find? fun c => !c.isWhitespace) ≠ some openBrace →
      parse decode now uuid (line :: rest) p = parse decode now uuid rest p) ∧
    (∀ e, (line.toList.find? fun c => !c.isWhitespace) = some openBrace →
      decode line = Except.error e →
      parse decode now uuid (line :: rest) p = some (Except.error e)) := by
  constructor
  · intro h
    simp only [parse, if_pos h]
  · intro e h hd
    have h2 : ¬((line.toList.find? fun c => !c.isWhitespace) ≠ some openBrace) :=
      not_not_intro h
    simp only [parse, if_neg h2, hd]

theorem parse_skip_noncandidate_error_candidate_witness :
    ((("hello").toList.find? fun c => !c.isWhitespace) ≠ some openBrace ∧
      parse dEx 0 "u" ["hello", "x"] (Payload.new genericEnv) =
        parse dEx 0 "u" ["x"] (Payload.new genericEnv)) ∧
    ((("\x7bbad").toList.find? fun c => !c.isWhitespace) = some openBrace ∧
      dEx "\x7bbad" = Except.error "bad" ∧
      parse dEx 0 "u" ["\x7bbad", "x"] (Payload.new genericEnv) = some (Except.error "bad")) :=
  ⟨⟨by decide,
    (parse_skip_noncandidate_error_candidate dEx 0 "u" "hello" ["x"] (Payload.new genericEnv)).1
      (by decide)⟩,
   ⟨by decide, rfl,
    (parse_skip_noncandidate_error_candidate dEx 0 "u" "\x7bbad" ["x"] (Payload.new genericEnv)).2
      "bad" (by decide) rfl⟩⟩

/-- C1 fails on the code: with `batch_size = 2` and a session holding one
complete and two incomplete records, `batchify` returns a single batch
holding 3 > 2 records, because all incomplete records are appended to an
under-full batch with no check that the total stays within the limit. -/
theorem batchify_exceeds_batch_size :
    (Payload.batchify pEx1 2).map (fun bs => bs.map (fun b => b.data.length)) = some [3] ∧
    2 < 3 :=
  ⟨rfl, by decide⟩

/-- C1 amended: every batch returned by `batchify(session, N)` holds at
most `max N (N - 1 + I)` records, where `I` is the number of incomplete
records in the session: a batch receives at most `N` complete records,
and only a batch holding at most `N - 1` records receives the (all `I`)
incomplete records, which may push its total above `N`. -/
theorem batchify_batch_size_bound (p : Payload) (N : Nat) (hN : 0 < N)
    (batches : List Payload) (hb : p.batchify N = some batches)
    (b : Payload) (hmem : b ∈ batches) :
    b.data.length ≤
      max N (N - 1 + ((p.data.map Prod.snd).filter (fun td => !td.is_finished)).length) := by
  have hN0 : ¬N = 0 := by omega
  simp only [Payload.batchify, if_neg hN0, List.partition_eq_filter_filter] at hb
  have hb2 := Option.some.inj hb
  subst hb2
  rcases List.mem_map.mp hmem with ⟨chunk, hc, rfl⟩
  have hck := chunksOf_mem_length N _ chunk hc
  have hbase := foldl_insertData_length chunk p.new_clean
  have hbase2 : (chunk.foldl Payload.insertData p.new_clean).data.length ≤ chunk.length := by
    simpa [Payload.new_clean] using hbase
  by_cases hlt : (chunk.foldl Payload.insertData p.new_clean).data.length < N
  · have happ := foldl_insertData_length
      ((p.data.map Prod.snd).filter (fun td => !td.is_finished))
      (chunk.foldl Payload.insertData p.new_clean)
    simp only [if_pos hlt]
    have hle : (((p.data.map Prod.snd).filter (fun td => !td.is_finished)).foldl
        Payload.insertData (chunk.foldl Payload.insertData p.new_clean)).data.length ≤
        N - 1 + ((p.data.map Prod.snd).filter (fun td => !td.is_finished)).length := by
      omega
    exact le_trans hle (le_max_right _ _)
  · simp only [if_neg hlt]
    exact le_trans (le_trans hbase2 hck) (le_max_left _ _)

theorem batchify_batch_size_bound_witness :
    0 < 2 ∧ Payload.batchify pEx1 2 = some [pEx1] ∧ pEx1 ∈ [pEx1] ∧
    pEx1.data.length ≤
      max 2 (2 - 1 + ((pEx1.data.map Prod.snd).filter (fun td => !td.is_finished)).length) :=
  ⟨by decide, rfl, List.mem_singleton.mpr rfl,
    batchify_batch_size_bound pEx1 2 (by decide) [pEx1] rfl pEx1 (List.mem_singleton.mpr rfl)⟩
